import Mathlib

/-!
# Falling block entity

A shallow embedding of `server/entity/falling_block.go` (package `entity`) and of the
`world.Entity` / `world.TickerEntity` contracts of `server/world/entity.go`.

* Go `float64` vectors (`mgl64.Vec3`) are taken over exact rationals.
* The Go program mutates a `*FallingBlock` and a `*world.World` in place; here both are
  passed explicitly and returned.
* Every call `Tick` makes on the world boundary is recorded, in order, in a trace, so that
  statements about which operations a tick performs can be phrased on the trace as well as
  on the resulting world state.
* Collaborators whose code is outside the two source files (the movement computer, the
  block capability surface, the world storage) are parameters collected in `Env`, or are
  modelled from the specification where marked.
-/

namespace Dragonfly

/-! ## Data model -/

/-- The vector type `mgl64.Vec3`: three `float64` components, here exact rationals. -/
structure Vec3 where
  x : ℚ
  y : ℚ
  z : ℚ
  deriving DecidableEq

/-- The Go zero value `mgl64.Vec3{}`. -/
def Vec3.zero : Vec3 := ⟨0, 0, 0⟩

/-- The block position type `cube.Pos`: an integer cell. -/
structure Pos where
  x : Int
  y : Int
  z : Int
  deriving DecidableEq

/-- Modelled from the spec: `cube.PosFromVec3` (package `cube` is not among the sources) is
"the integer cell containing the new position", the component-wise floor. -/
def PosFromVec3 (v : Vec3) : Pos := ⟨Int.floor v.x, Int.floor v.y, Int.floor v.z⟩

/-- A value of the interface type `world.Block`. The number identifies the dynamic value;
which optional interfaces it implements is recorded in `Env`. -/
structure Block where
  id : Nat
  deriving DecidableEq

/-- The result of `item.NewStack(i, n)`: an item together with a count. -/
structure Stack where
  item : Block
  count : Nat
  deriving DecidableEq

/-- The constructor `item.NewStack`. -/
def NewStack (i : Block) (count : Nat) : Stack := ⟨i, count⟩

/-- The item entity `*entity.Item`, reduced to what `Tick` writes: its stack, position and
velocity. -/
structure Item where
  i : Stack
  pos : Vec3
  velocity : Vec3
  deriving DecidableEq

/-- The method `Item.SetVelocity`, stores the velocity. -/
def Item.SetVelocity (it : Item) (v : Vec3) : Item := { it with velocity := v }

/-- An entry of a world's live entity set. A falling block is held by pointer, so it is
represented by its address; an item entity by its contents. -/
inductive Entity where
  | fallingBlock (addr : Nat)
  | item (e : Item)
  deriving DecidableEq

/-- Modelled from the spec: the world boundary `*world.World` (package `world`, apart from
`entity.go`, is not among the sources): the block a query reports for every cell, a live
entity set, and the "valid cells" of the world, the only cells at which a placement is
assumed to succeed. -/
structure World where
  blocks : Pos → Block
  entities : List Entity
  valid : Pos → Bool

/-- The struct `MovementComputer`: the three configuration fields set by `NewFallingBlock`
and the ground-contact flag read back by `OnGround`. -/
structure MovementComputer where
  Gravity : ℚ
  DragBeforeGravity : Bool
  Drag : ℚ
  onGround : Bool
  deriving DecidableEq

/-- The struct `FallingBlock`. The field `addr` stands for the identity of the pointer
`*FallingBlock`, under which the entity is registered in a world. -/
structure FallingBlock where
  addr : Nat
  block : Block
  velocity : Vec3
  pos : Vec3
  c : MovementComputer
  deriving DecidableEq

/-- The output of one movement computation: next position, next velocity and the
"resting on ground" flag. -/
structure Movement where
  pos : Vec3
  vel : Vec3
  onGround : Bool
  deriving DecidableEq

/-- The collaborators of the falling block that are outside the source files.

* `solidifiable b` is the result of the type assertion `b.(Solidifiable)`: the method
  `Solidifies(pos, w)` when the block implements the interface, `none` otherwise. The world
  argument is the handle returned by `f.World()`, `none` for Go `nil`.
* `replaceable b` is the result of `b.(replaceable)`: the method `ReplaceableBy`.
* `item b` tells whether the assertion `b.(world.Item)` succeeds.
* `tickMovement` is the movement computer as a black box: from the computer, the entity,
  the world, the current position and the current velocity it yields the next position,
  the next velocity and the ground-contact flag.
* `nilBlock` is the block that `Block(pos)` reports on a `nil` world handle.
* `typeName b` is the name of the dynamic type of `b`, as `%T` prints it.
* `newItemVelocity` is the velocity `NewItem` leaves in a new item entity. -/
structure Env where
  solidifiable : Block → Option (Pos → Option World → Bool)
  replaceable : Block → Option (Block → Bool)
  item : Block → Bool
  tickMovement : MovementComputer → FallingBlock → World → Vec3 → Vec3 → Movement
  nilBlock : Block
  typeName : Block → String
  newItemVelocity : Stack → Vec3 → Vec3

/-- Modelled from the spec: `NewItem` (file `item.go` is not among the sources) builds the
"item-pickup entity" holding the given stack at the given position. The velocity it starts
with is decided by the absent constructor and is taken from the environment. -/
def NewItem (env : Env) (i : Stack) (pos : Vec3) : Item :=
  ⟨i, pos, env.newItemVelocity i pos⟩

/-- A call made on the world boundary. -/
inductive Call where
  | block (pos : Pos)
  | placeBlock (pos : Pos) (b : Block)
  | addEntity (e : Entity)
  | removeEntity (e : Entity)
  deriving DecidableEq

/-- The world together with the calls made on the world boundary so far, oldest first. -/
structure Sim where
  world : World
  calls : List Call

/-! ## World boundary

Modelled from the spec: the operations "query block at a cell", "place a block variant at a
cell", "add/remove an entity to/from the world's live entity set". None of them fails. A
call through a `nil` handle reaches no world and leaves the world state as it is; so does a
placement at a cell that is not a valid cell of the world. -/

/-- Modelled from the spec: `(*World).Block`, "query block at a cell → block variant". -/
def Sim.Block (env : Env) (s : Sim) (h : Option World) (pos : Pos) : Dragonfly.Block × Sim :=
  (match h with
    | some w => w.blocks pos
    | none => env.nilBlock,
   { s with calls := s.calls ++ [Call.block pos] })

/-- Modelled from the spec: `(*World).PlaceBlock`, "place a block variant at a cell
(mutates world; no return value expected, assumed always to succeed for valid cells)". At a
valid cell the block is written; at any other cell the call returns without effect. -/
def Sim.PlaceBlock (s : Sim) (h : Option World) (pos : Pos) (b : Dragonfly.Block) : Sim :=
  { world :=
      match h with
      | some w =>
        if w.valid pos then { w with blocks := fun q => if q = pos then b else w.blocks q }
        else w
      | none => s.world,
    calls := s.calls ++ [Call.placeBlock pos b] }

/-- Modelled from the spec: `(*World).AddEntity`, "add an entity to the world's live entity
set". -/
def Sim.AddEntity (s : Sim) (h : Option World) (e : Entity) : Sim :=
  { world :=
      match h with
      | some w => { w with entities := w.entities ++ [e] }
      | none => s.world,
    calls := s.calls ++ [Call.addEntity e] }

/-- Modelled from the spec: `(*World).RemoveEntity`, "remove an entity from the world's live
entity set". -/
def Sim.RemoveEntity (s : Sim) (h : Option World) (e : Entity) : Sim :=
  { world :=
      match h with
      | some w => { w with entities := w.entities.filter (fun x => decide (x ≠ e)) }
      | none => s.world,
    calls := s.calls ++ [Call.removeEntity e] }

/-! ## Movement computer -/

/-- The method `(*MovementComputer).TickMovement`: returns the next position and velocity
and leaves the ground-contact flag in the computer. -/
def MovementComputer.TickMovement (env : Env) (c : MovementComputer) (e : FallingBlock)
    (w : World) (pos vel : Vec3) : MovementComputer × Vec3 × Vec3 :=
  let m := env.tickMovement c e w pos vel
  ({ c with onGround := m.onGround }, m.pos, m.vel)

/-- The method `(*MovementComputer).OnGround`. -/
def MovementComputer.OnGround (c : MovementComputer) : Bool := c.onGround

/-! ## The falling block -/

/-- The constructor `NewFallingBlock`; `addr` is the address of the new allocation. -/
def NewFallingBlock (addr : Nat) (block : Block) (pos : Vec3) : FallingBlock :=
  { addr := addr
    block := block
    c := { Gravity := 4 / 100, DragBeforeGravity := true, Drag := 2 / 100, onGround := false }
    pos := pos
    velocity := Vec3.zero }

/-- The method `Block`. -/
def FallingBlock.Block (f : FallingBlock) : Dragonfly.Block := f.block

/-- The method `Position`. -/
def FallingBlock.Position (f : FallingBlock) : Vec3 := f.pos

/-- The method `Velocity`. -/
def FallingBlock.Velocity (f : FallingBlock) : Vec3 := f.velocity

/-- The method `SetVelocity`. -/
def FallingBlock.SetVelocity (f : FallingBlock) (v : Vec3) : FallingBlock :=
  { f with velocity := v }

/-- The method `World`: `world.OfEntity(f)`, the world the entity is registered in, `none`
(Go `nil`) when it is registered in no world. -/
def FallingBlock.World (f : FallingBlock) (w : Dragonfly.World) : Option Dragonfly.World :=
  if Entity.fallingBlock f.addr ∈ w.entities then some w else none

/-- The method `Immobile`. -/
def FallingBlock.Immobile (_f : FallingBlock) : Bool := false

/-- The method `Rotation`. -/
def FallingBlock.Rotation (_f : FallingBlock) : ℚ × ℚ := (0, 0)

/-- The method `EncodeEntity`. -/
def FallingBlock.EncodeEntity (_f : FallingBlock) : String := "minecraft:falling_block"

/-- The method `Close`: removes the entity from its world. The returned error is always
`nil` and is not represented. -/
def FallingBlock.Close (f : FallingBlock) (s : Sim) : Sim :=
  s.RemoveEntity (f.World s.world) (Entity.fallingBlock f.addr)

/-- The method `Tick`. The tick counter is ignored, as in the source. The result is the
entity after the tick and the world after the tick with the calls the tick made on it. -/
def FallingBlock.Tick (env : Env) (f : FallingBlock) (w : Dragonfly.World) (_current : Int) :
    FallingBlock × Sim :=
  let s : Sim := ⟨w, []⟩
  let r := f.c.TickMovement env f s.world f.Position f.Velocity
  let f := { f with c := r.1 }
  let f := { f with pos := r.2.1 }
  let f := { f with velocity := r.2.2 }
  let pos := PosFromVec3 f.Position
  if (match env.solidifiable f.block with
      | some a => a pos (f.World s.world)
      | none => false) || f.c.OnGround then
    let b := s.Block env (f.World s.world) pos
    let s := b.2
    let s :=
      if (match env.replaceable b.1 with
          | some r => r f.block
          | none => false) then
        s.PlaceBlock (f.World s.world) pos f.block
      else
        if env.item f.block then
          let itemEntity := NewItem env (NewStack f.block 1) f.Position
          let itemEntity := itemEntity.SetVelocity Vec3.zero
          s.AddEntity (f.World s.world) (Entity.item itemEntity)
        else s
    (f, f.Close s)
  else
    (f, s)

/-- Modelled from the spec: `physics.AABB` (package `physics` is not among the sources), a
"bounding box" given by its minimum and maximum corner. -/
structure AABB where
  min : Vec3
  max : Vec3
  deriving DecidableEq

/-- Modelled from the spec: `physics.NewAABB`, the box with the two corners passed. -/
def NewAABB (min max : Vec3) : AABB := ⟨min, max⟩

/-- The method `AABB`. -/
def FallingBlock.AABB (_f : FallingBlock) : Dragonfly.AABB :=
  NewAABB ⟨-49 / 100, 0, -49 / 100⟩ ⟨49 / 100, 98 / 100, 49 / 100⟩

/-- The method `Name`: `fmt.Sprintf("%T", f.block)`, the name of the dynamic type of the
payload. -/
def FallingBlock.Name (env : Env) (f : FallingBlock) : String := env.typeName f.block

/-! ## Call sequences -/

/-- The methods of `*FallingBlock`, with their arguments. -/
inductive Method where
  | Block
  | Tick (current : Int)
  | Immobile
  | Close
  | Name
  | AABB
  | Position
  | World
  | Rotation
  | Velocity
  | SetVelocity (v : Vec3)
  | EncodeEntity

/-- What a method call returns. -/
inductive Value where
  | void
  | block (b : Dragonfly.Block)
  | vec (v : Vec3)
  | bool (b : Bool)
  | string (s : String)
  | aabb (a : Dragonfly.AABB)
  | rotation (yaw pitch : ℚ)
  | world (w : Option Dragonfly.World)

/-- One method call: the entity and the world after the call, and the value returned.
`Tick`, `Close` and `SetVelocity` are the methods whose bodies write; the others return a
value computed from the receiver. -/
def FallingBlock.call (env : Env) (m : Method) (st : FallingBlock × Dragonfly.World) :
    (FallingBlock × Dragonfly.World) × Value :=
  match m with
  | Method.Block => (st, Value.block st.1.Block)
  | Method.Tick current =>
    (((st.1.Tick env st.2 current).1, (st.1.Tick env st.2 current).2.world), Value.void)
  | Method.Immobile => (st, Value.bool st.1.Immobile)
  | Method.Close => ((st.1, (st.1.Close ⟨st.2, []⟩).world), Value.void)
  | Method.Name => (st, Value.string (st.1.Name env))
  | Method.AABB => (st, Value.aabb st.1.AABB)
  | Method.Position => (st, Value.vec st.1.Position)
  | Method.World => (st, Value.world (st.1.World st.2))
  | Method.Rotation => (st, Value.rotation st.1.Rotation.1 st.1.Rotation.2)
  | Method.Velocity => (st, Value.vec st.1.Velocity)
  | Method.SetVelocity v => ((st.1.SetVelocity v, st.2), Value.void)
  | Method.EncodeEntity => (st, Value.string st.1.EncodeEntity)

/-- The effect of a sequence of method calls, first call first. -/
def FallingBlock.run (env : Env) (ms : List Method) (st : FallingBlock × Dragonfly.World) :
    FallingBlock × Dragonfly.World :=
  ms.foldl (fun acc m => (FallingBlock.call env m acc).1) st

/-! ## Vocabulary of the specification

The notions the specification uses to describe a tick, each stated on the pre-tick entity
and world. -/

/-- The block entity is registered in the world (`f.World()` is not `nil`). -/
def inWorld (f : FallingBlock) (w : World) : Prop :=
  Entity.fallingBlock f.addr ∈ w.entities

instance (f : FallingBlock) (w : World) : Decidable (inWorld f w) := by
  unfold inWorld; infer_instance

/-- The output of the movement computer for the pre-tick position and velocity. -/
def moved (env : Env) (f : FallingBlock) (w : World) : Movement :=
  env.tickMovement f.c f w f.pos f.velocity

/-- The destination cell: the integer cell containing the post-movement position. -/
def destination (env : Env) (f : FallingBlock) (w : World) : Pos :=
  PosFromVec3 (moved env f w).pos

/-- The payload has the solidification capability and its predicate holds at the cell. -/
def solidifiesAt (env : Env) (f : FallingBlock) (w : World) (cell : Pos) : Bool :=
  match env.solidifiable f.block with
  | some a => a cell (f.World w)
  | none => false

/-- The terminal condition: the payload solidifies at the destination cell, or the movement
computer reports on-ground. -/
def terminal (env : Env) (f : FallingBlock) (w : World) : Bool :=
  solidifiesAt env f w (destination env f w) || (moved env f w).onGround

/-- The block occupying the destination cell, as the world handle of the entity reports
it. -/
def occupant (env : Env) (f : FallingBlock) (w : World) : Block :=
  match f.World w with
  | some w0 => w0.blocks (destination env f w)
  | none => env.nilBlock

/-- The block `b` has the replaceability capability and reports `ReplaceableBy(payload)`. -/
def replaceableBy (env : Env) (b payload : Block) : Bool :=
  match env.replaceable b with
  | some r => r payload
  | none => false

/-- The entity after a tick that commits the movement `m`. -/
def committed (f : FallingBlock) (m : Movement) : FallingBlock :=
  { f with c := { f.c with onGround := m.onGround }, pos := m.pos, velocity := m.vel }

/-- The item entity a terminal tick drops: a one-unit stack of the payload at the committed
position, at rest. -/
def droppedItem (env : Env) (f : FallingBlock) (w : World) : Entity :=
  Entity.item ⟨⟨f.block, 1⟩, (moved env f w).pos, Vec3.zero⟩

/-- The world with the entity taken out of the live entity set. -/
def withoutEntity (w : World) (e : Entity) : World :=
  { w with entities := w.entities.filter (fun x => decide (x ≠ e)) }

/-- The world and trace a terminal tick leaves, written with the vocabulary above. -/
def resolved (env : Env) (f : FallingBlock) (w : World) : Sim :=
  let d := destination env f w
  let s1 : Sim := ⟨w, [Call.block d]⟩
  let s2 : Sim :=
    if replaceableBy env (occupant env f w) f.block then s1.PlaceBlock (f.World w) d f.block
    else if env.item f.block then s1.AddEntity (f.World w) (droppedItem env f w)
    else s1
  s2.RemoveEntity (f.World s2.world) (Entity.fallingBlock f.addr)

/-- The calls a terminal tick makes after the block query: the placement, the item drop, or
nothing. -/
def outcomeCalls (env : Env) (f : FallingBlock) (w : World) : List Call :=
  if replaceableBy env (occupant env f w) f.block then
    [Call.placeBlock (destination env f w) f.block]
  else if env.item f.block then [Call.addEntity (droppedItem env f w)]
  else []

/-- The call is a block placement. -/
def Call.isPlaceBlock : Call → Bool
  | Call.placeBlock _ _ => true
  | _ => false

/-- The call is an entity addition. -/
def Call.isAddEntity : Call → Bool
  | Call.addEntity _ => true
  | _ => false

/-! ## Example instances

A small block registry, a movement computer and three worlds, used to evaluate the model on
concrete inputs. -/

/-- Air: replaceable by every block. -/
def air : Block := ⟨0⟩

/-- Sand: an item, without the solidification capability. -/
def sand : Block := ⟨1⟩

/-- Concrete powder: an item with the solidification capability. -/
def concretePowder : Block := ⟨2⟩

/-- Stone: solid, without the replaceability capability. -/
def stone : Block := ⟨3⟩

/-- Water: replaceable by every block. -/
def water : Block := ⟨4⟩

/-- A moving piston part: a block that is not an item. -/
def movingPiston : Block := ⟨5⟩

/-- A torch: not solid, without the replaceability capability. -/
def torch : Block := ⟨6⟩

/-- An example movement computer: vertical drag and gravity in the configured order, then a
step along the velocity unless the cell reached holds stone, in which case the entity stays
where it is and rests on the ground. -/
def sampleMovement (c : MovementComputer) (_e : FallingBlock) (w : World) (pos vel : Vec3) :
    Movement :=
  let vy := (if c.DragBeforeGravity then vel.y * (1 - c.Drag) else vel.y) - c.Gravity
  let vy := if c.DragBeforeGravity then vy else vy * (1 - c.Drag)
  let next : Vec3 := ⟨pos.x + vel.x, pos.y + vy, pos.z + vel.z⟩
  if w.blocks (PosFromVec3 next) = stone then ⟨pos, ⟨vel.x, 0, vel.z⟩, true⟩
  else ⟨next, ⟨vel.x, vy, vel.z⟩, false⟩

/-- An example environment: concrete powder solidifies where the cell below holds water, air
and water are replaceable by anything, sand and concrete powder are items. -/
def sampleEnv : Env where
  solidifiable := fun b =>
    if b = concretePowder then
      some (fun pos h =>
        match h with
        | some w => decide (w.blocks ⟨pos.x, pos.y - 1, pos.z⟩ = water)
        | none => false)
    else none
  replaceable := fun b =>
    if b = air ∨ b = water then some (fun _ => true) else none
  item := fun b => decide (b = sand ∨ b = concretePowder)
  typeName := fun b => if b = sand then "block.Sand" else "block.Block"
  newItemVelocity := fun _ _ => ⟨0, 1 / 5, 0⟩
  tickMovement := sampleMovement
  nilBlock := air

/-- Stone below height zero, air from height zero on. The valid cells of this world and of
the next two are those at heights from -64 up to, not including, 320. -/
def meadow (es : List Entity) : World where
  blocks := fun q => if q.y < 0 then stone else air
  entities := es
  valid := fun q => decide (-64 ≤ q.y ∧ q.y < 320)

/-- Stone below height zero, torches at height zero, air above. -/
def torchField (es : List Entity) : World where
  blocks := fun q => if q.y < 0 then stone else if q.y = 0 then torch else air
  entities := es
  valid := fun q => decide (-64 ≤ q.y ∧ q.y < 320)

/-- Stone below height minus one, water at height minus one, air from height zero on. -/
def pond (es : List Entity) : World where
  blocks := fun q => if q.y < -1 then stone else if q.y = -1 then water else air
  entities := es
  valid := fun q => decide (-64 ≤ q.y ∧ q.y < 320)

/-- Sand just above the ground. -/
def restingSand : FallingBlock := NewFallingBlock 7 sand ⟨1 / 2, 1 / 100, 1 / 2⟩

/-- A moving piston part just above the ground. -/
def restingPiston : FallingBlock := NewFallingBlock 7 movingPiston ⟨1 / 2, 1 / 100, 1 / 2⟩

/-- Sand high in the air. -/
def fallingSand : FallingBlock := NewFallingBlock 7 sand ⟨1 / 2, 5, 1 / 2⟩

/-- Concrete powder spawned just above a water surface, about to sink into the water. -/
def sinkingPowder : FallingBlock := NewFallingBlock 7 concretePowder ⟨1 / 2, 1 / 50, 1 / 2⟩

/-- Concrete powder spawned half a block above a water surface. -/
def hoveringPowder : FallingBlock := NewFallingBlock 7 concretePowder ⟨1 / 2, 1 / 2, 1 / 2⟩

/-- The concrete powder and its world after its first tick, in which it solidified and was
removed from the world. -/
def afterSolidify : FallingBlock × World :=
  FallingBlock.run sampleEnv [Method.Tick 0] (hoveringPowder, pond [Entity.fallingBlock 7])

/-- A variant of the example environment in which concrete powder solidifies exactly in the
cell at the origin, whatever the world holds. -/
def originEnv : Env :=
  { sampleEnv with
    solidifiable := fun b =>
      if b = concretePowder then some (fun pos _ => decide (pos = ⟨0, 0, 0⟩)) else none }

/-- A variant of the example environment whose movement computer behaves like the example
one for an upward velocity of one and reports ground contact without moving otherwise. -/
def kickEnv : Env :=
  { sampleEnv with
    tickMovement := fun c e w pos vel =>
      if vel = ⟨0, 1, 0⟩ then sampleMovement c e w pos vel else ⟨pos, vel, true⟩ }

/-- Stone below height 256, air from height 256 on; the valid cells are those at heights
from 0 up to, not including, 256. -/
def highlands (es : List Entity) : World where
  blocks := fun q => if q.y < 256 then stone else air
  entities := es
  valid := fun q => decide (0 ≤ q.y ∧ q.y < 256)

/-- Sand just above the topmost layer of the highlands. -/
def summitSand : FallingBlock := NewFallingBlock 7 sand ⟨1 / 2, 256 + 1 / 100, 1 / 2⟩

/-- The sand and its world after it landed in the meadow, which placed it as a block and
removed the entity, and was then given an upward velocity of one. -/
def landedSand : FallingBlock × World :=
  FallingBlock.run sampleEnv [Method.Tick 0, Method.SetVelocity ⟨0, 1, 0⟩]
    (restingSand, meadow [Entity.fallingBlock 7])

/-! ## Shape of a tick -/

theorem world_of_inWorld {f : FallingBlock} {w : World} (h : inWorld f w) :
    f.World w = some w := by
  unfold FallingBlock.World inWorld at *
  simp [h]

theorem world_of_not_inWorld {f : FallingBlock} {w : World} (h : ¬ inWorld f w) :
    f.World w = none := by
  unfold FallingBlock.World inWorld at *
  simp [h]

theorem tick_entity (env : Env) (f : FallingBlock) (w : World) (n : Int) :
    (f.Tick env w n).1 = committed f (moved env f w) := by
  unfold FallingBlock.Tick
  simp only [MovementComputer.TickMovement, FallingBlock.Position, FallingBlock.Velocity]
  split <;> rfl

theorem tick_eq (env : Env) (f : FallingBlock) (w : World) (n : Int) :
    f.Tick env w n =
      (committed f (moved env f w), if terminal env f w then resolved env f w else ⟨w, []⟩) := by
  show (if terminal env f w = true then (committed f (moved env f w), resolved env f w)
      else (committed f (moved env f w), (⟨w, []⟩ : Sim))) = _
  by_cases h : terminal env f w = true
  · rw [if_pos h, if_pos h]
  · rw [if_neg h, if_neg h]

theorem resolved_calls (env : Env) (f : FallingBlock) (w : World) :
    (resolved env f w).calls =
      Call.block (destination env f w) ::
        (outcomeCalls env f w ++ [Call.removeEntity (Entity.fallingBlock f.addr)]) := by
  unfold resolved outcomeCalls
  by_cases h1 : replaceableBy env (occupant env f w) f.block = true
  · simp [h1, Sim.RemoveEntity, Sim.PlaceBlock]
  · by_cases h2 : env.item f.block = true
    · simp [h1, h2, Sim.RemoveEntity, Sim.AddEntity]
    · simp [h1, h2, Sim.RemoveEntity]

theorem resolved_world_out (env : Env) (f : FallingBlock) (w : World) (hout : ¬ inWorld f w) :
    (resolved env f w).world = w := by
  have hw : f.World w = none := world_of_not_inWorld hout
  unfold resolved
  by_cases h1 : replaceableBy env (occupant env f w) f.block = true
  · simp [h1, hw, Sim.RemoveEntity, Sim.PlaceBlock]
  · by_cases h2 : env.item f.block = true
    · simp [h1, h2, hw, Sim.RemoveEntity, Sim.AddEntity]
    · simp [h1, h2, hw, Sim.RemoveEntity]

theorem world_of_blocks {f : FallingBlock} {w : World} (hin : inWorld f w)
    (b : Pos → Block) : f.World ⟨b, w.entities, w.valid⟩ = some ⟨b, w.entities, w.valid⟩ :=
  @world_of_inWorld f ⟨b, w.entities, w.valid⟩ hin

theorem world_of_append {f : FallingBlock} {w : World} (hin : inWorld f w) (e : Entity) :
    f.World ⟨w.blocks, w.entities ++ [e], w.valid⟩ =
      some ⟨w.blocks, w.entities ++ [e], w.valid⟩ := by
  apply world_of_inWorld
  unfold inWorld at *
  simp [hin]

theorem resolved_world_in (env : Env) (f : FallingBlock) (w : World) (hin : inWorld f w) :
    (resolved env f w).world =
      withoutEntity
        (if replaceableBy env (w.blocks (destination env f w)) f.block then
          (if w.valid (destination env f w) then
            { w with
              blocks := fun q => if q = destination env f w then f.block else w.blocks q }
          else w)
        else if env.item f.block then
          { w with entities := w.entities ++ [droppedItem env f w] }
        else w)
        (Entity.fallingBlock f.addr) := by
  have hw : f.World w = some w := world_of_inWorld hin
  have hocc : occupant env f w = w.blocks (destination env f w) := by
    unfold occupant; rw [hw]
  unfold resolved
  rw [hocc]
  by_cases h1 : replaceableBy env (w.blocks (destination env f w)) f.block = true
  · by_cases hv : w.valid (destination env f w) = true
    · simp [h1, hv, hw, world_of_blocks hin, Sim.RemoveEntity, Sim.PlaceBlock, withoutEntity]
    · simp [h1, hv, hw, Sim.RemoveEntity, Sim.PlaceBlock, withoutEntity]
  · by_cases h2 : env.item f.block = true
    · simp [h1, h2, hw, world_of_append hin, Sim.RemoveEntity, Sim.AddEntity, withoutEntity]
    · simp [h1, h2, hw, Sim.RemoveEntity, withoutEntity]


theorem not_mem_withoutEntity (w : World) (e : Entity) : e ∉ (withoutEntity w e).entities := by
  simp [withoutEntity, List.mem_filter]

theorem tick_world_terminal (env : Env) (f : FallingBlock) (w : World) (n : Int)
    (hterm : terminal env f w = true) : (f.Tick env w n).2 = resolved env f w := by
  rw [tick_eq]; simp [hterm]

theorem withoutEntity_of_not_mem (w : World) (e : Entity) (h : e ∉ w.entities) :
    withoutEntity w e = w := by
  have hf : w.entities.filter (fun x => decide (x ≠ e)) = w.entities := by
    rw [List.filter_eq_self]
    intro a ha
    have : a ≠ e := fun hae => h (hae ▸ ha)
    simpa using this
  cases w with
  | mk b es v => simp only [withoutEntity] at *; rw [hf]

theorem tick_terminal_not_mem (env : Env) (f : FallingBlock) (w : World) (n : Int)
    (hterm : terminal env f w = true) :
    Entity.fallingBlock f.addr ∉ (f.Tick env w n).2.world.entities := by
  rw [tick_world_terminal env f w n hterm]
  by_cases hin : inWorld f w
  · rw [resolved_world_in env f w hin]
    exact not_mem_withoutEntity _ _
  · rw [resolved_world_out env f w hin]
    exact hin

theorem tick_terminal_calls (env : Env) (f : FallingBlock) (w : World) (n : Int)
    (hterm : terminal env f w = true) :
    (f.Tick env w n).2.calls =
      Call.block (destination env f w) ::
        (outcomeCalls env f w ++ [Call.removeEntity (Entity.fallingBlock f.addr)]) := by
  rw [tick_world_terminal env f w n hterm, resolved_calls]

theorem tick_not_terminal (env : Env) (f : FallingBlock) (w : World) (n : Int)
    (hterm : terminal env f w = false) : (f.Tick env w n).2 = ⟨w, []⟩ := by
  rw [tick_eq]; simp [hterm]

theorem tick_world_out (env : Env) (f : FallingBlock) (w : World) (n : Int)
    (hout : ¬ inWorld f w) : (f.Tick env w n).2.world = w := by
  cases hterm : terminal env f w
  · rw [tick_not_terminal env f w n hterm]
  · rw [tick_world_terminal env f w n hterm, resolved_world_out env f w hout]

theorem outcomeCalls_filter (env : Env) (f : FallingBlock) (w : World) :
    ((outcomeCalls env f w).filter Call.isPlaceBlock).length +
      ((outcomeCalls env f w).filter Call.isAddEntity).length ≤ 1 := by
  unfold outcomeCalls
  split
  · simp [Call.isPlaceBlock, Call.isAddEntity]
  · split <;> simp [Call.isPlaceBlock, Call.isAddEntity]

/-! ## The example instances evaluated -/

theorem restingSand_meadow_moved :
    moved sampleEnv restingSand (meadow [Entity.fallingBlock 7]) =
      ⟨⟨1 / 2, 1 / 100, 1 / 2⟩, ⟨0, 0, 0⟩, true⟩ := by
  norm_num [moved, sampleEnv, sampleMovement, restingSand, NewFallingBlock, meadow,
    PosFromVec3, Vec3.zero, Int.floor_lt, stone, air]

theorem restingSand_meadow_destination :
    destination sampleEnv restingSand (meadow [Entity.fallingBlock 7]) = ⟨0, 0, 0⟩ := by
  rw [destination, restingSand_meadow_moved]
  norm_num [PosFromVec3, Int.floor_eq_iff]

theorem restingSand_meadow_terminal :
    terminal sampleEnv restingSand (meadow [Entity.fallingBlock 7]) = true := by
  simp [terminal, restingSand_meadow_moved]

theorem restingSand_torchField_moved :
    moved sampleEnv restingSand (torchField [Entity.fallingBlock 7]) =
      ⟨⟨1 / 2, 1 / 100, 1 / 2⟩, ⟨0, 0, 0⟩, true⟩ := by
  norm_num [moved, sampleEnv, sampleMovement, restingSand, NewFallingBlock, torchField,
    PosFromVec3, Vec3.zero, Int.floor_lt, stone, air, torch]

theorem restingSand_torchField_destination :
    destination sampleEnv restingSand (torchField [Entity.fallingBlock 7]) = ⟨0, 0, 0⟩ := by
  rw [destination, restingSand_torchField_moved]
  norm_num [PosFromVec3, Int.floor_eq_iff]

theorem restingSand_torchField_terminal :
    terminal sampleEnv restingSand (torchField [Entity.fallingBlock 7]) = true := by
  simp [terminal, restingSand_torchField_moved]

theorem restingSand_torchField_occupant :
    occupant sampleEnv restingSand (torchField [Entity.fallingBlock 7]) = torch := by
  have hin : inWorld restingSand (torchField [Entity.fallingBlock 7]) := by
    simp [inWorld, restingSand, NewFallingBlock, torchField]
  rw [occupant, world_of_inWorld hin, restingSand_torchField_destination]
  simp [torchField]

theorem restingPiston_torchField_moved :
    moved sampleEnv restingPiston (torchField [Entity.fallingBlock 7]) =
      ⟨⟨1 / 2, 1 / 100, 1 / 2⟩, ⟨0, 0, 0⟩, true⟩ := by
  norm_num [moved, sampleEnv, sampleMovement, restingPiston, NewFallingBlock, torchField,
    PosFromVec3, Vec3.zero, Int.floor_lt, stone, air, torch]

theorem restingPiston_torchField_destination :
    destination sampleEnv restingPiston (torchField [Entity.fallingBlock 7]) = ⟨0, 0, 0⟩ := by
  rw [destination, restingPiston_torchField_moved]
  norm_num [PosFromVec3, Int.floor_eq_iff]

theorem restingPiston_torchField_terminal :
    terminal sampleEnv restingPiston (torchField [Entity.fallingBlock 7]) = true := by
  simp [terminal, restingPiston_torchField_moved]

theorem restingPiston_torchField_occupant :
    occupant sampleEnv restingPiston (torchField [Entity.fallingBlock 7]) = torch := by
  have hin : inWorld restingPiston (torchField [Entity.fallingBlock 7]) := by
    simp [inWorld, restingPiston, NewFallingBlock, torchField]
  rw [occupant, world_of_inWorld hin, restingPiston_torchField_destination]
  simp [torchField]

theorem fallingSand_meadow_moved :
    moved sampleEnv fallingSand (meadow [Entity.fallingBlock 7]) =
      ⟨⟨1 / 2, 124 / 25, 1 / 2⟩, ⟨0, -1 / 25, 0⟩, false⟩ := by
  norm_num [moved, sampleEnv, sampleMovement, fallingSand, NewFallingBlock, meadow,
    PosFromVec3, Vec3.zero, Int.floor_lt, stone, air]

theorem fallingSand_meadow_terminal :
    terminal sampleEnv fallingSand (meadow [Entity.fallingBlock 7]) = false := by
  have hs : solidifiesAt sampleEnv fallingSand (meadow [Entity.fallingBlock 7])
      (destination sampleEnv fallingSand (meadow [Entity.fallingBlock 7])) = false := by
    simp [solidifiesAt, sampleEnv, fallingSand, NewFallingBlock, sand, concretePowder]
  rw [terminal, hs, fallingSand_meadow_moved]
  rfl

theorem sinkingPowder_pond_moved :
    moved sampleEnv sinkingPowder (pond [Entity.fallingBlock 7]) =
      ⟨⟨1 / 2, -1 / 50, 1 / 2⟩, ⟨0, -1 / 25, 0⟩, false⟩ := by
  norm_num [moved, sampleEnv, sampleMovement, sinkingPowder, NewFallingBlock, pond,
    PosFromVec3, Vec3.zero, Int.floor_lt, Int.floor_eq_iff, stone, air, water]

theorem sinkingPowder_pond_destination :
    destination sampleEnv sinkingPowder (pond [Entity.fallingBlock 7]) = ⟨0, -1, 0⟩ := by
  rw [destination, sinkingPowder_pond_moved]
  norm_num [PosFromVec3, Int.floor_eq_iff]

theorem sinkingPowder_pond_terminal :
    terminal sampleEnv sinkingPowder (pond [Entity.fallingBlock 7]) = false := by
  simp [terminal, sinkingPowder_pond_destination, solidifiesAt, sinkingPowder_pond_moved]
  simp [sampleEnv, sinkingPowder, NewFallingBlock, FallingBlock.World, pond, stone, water]

theorem hoveringPowder_pond_moved :
    moved sampleEnv hoveringPowder (pond [Entity.fallingBlock 7]) =
      ⟨⟨1 / 2, 23 / 50, 1 / 2⟩, ⟨0, -1 / 25, 0⟩, false⟩ := by
  norm_num [moved, sampleEnv, sampleMovement, hoveringPowder, NewFallingBlock, pond,
    PosFromVec3, Vec3.zero, Int.floor_lt, Int.floor_eq_iff, stone, air, water]

theorem hoveringPowder_pond_destination :
    destination sampleEnv hoveringPowder (pond [Entity.fallingBlock 7]) = ⟨0, 0, 0⟩ := by
  rw [destination, hoveringPowder_pond_moved]
  norm_num [PosFromVec3, Int.floor_eq_iff]

theorem hoveringPowder_pond_solidifies :
    solidifiesAt sampleEnv hoveringPowder (pond [Entity.fallingBlock 7])
      (destination sampleEnv hoveringPowder (pond [Entity.fallingBlock 7])) = true := by
  rw [hoveringPowder_pond_destination]
  simp [solidifiesAt, sampleEnv, hoveringPowder, NewFallingBlock, FallingBlock.World, pond]

theorem afterSolidify_entity :
    afterSolidify.1 =
      ⟨7, concretePowder, ⟨0, -1 / 25, 0⟩, ⟨1 / 2, 23 / 50, 1 / 2⟩,
        ⟨4 / 100, true, 2 / 100, false⟩⟩ := by
  show (hoveringPowder.Tick sampleEnv (pond [Entity.fallingBlock 7]) 0).1 = _
  rw [tick_entity, hoveringPowder_pond_moved]
  rfl

theorem afterSolidify_world :
    afterSolidify.2 =
      ⟨fun q => if q = ⟨0, 0, 0⟩ then concretePowder else (pond []).blocks q, [],
        (pond []).valid⟩ := by
  have hin : inWorld hoveringPowder (pond [Entity.fallingBlock 7]) := by
    simp [inWorld, hoveringPowder, NewFallingBlock, pond]
  have hterm : terminal sampleEnv hoveringPowder (pond [Entity.fallingBlock 7]) = true := by
    simp [terminal, hoveringPowder_pond_solidifies]
  show (hoveringPowder.Tick sampleEnv (pond [Entity.fallingBlock 7]) 0).2.world = _
  rw [tick_world_terminal _ _ _ _ hterm, resolved_world_in _ _ _ hin,
    hoveringPowder_pond_destination]
  simp [replaceableBy, sampleEnv, pond, withoutEntity, hoveringPowder, NewFallingBlock, air,
    water, stone]

theorem afterSolidify_moved :
    moved sampleEnv afterSolidify.1 afterSolidify.2 =
      ⟨⟨1 / 2, 238 / 625, 1 / 2⟩, ⟨0, -99 / 1250, 0⟩, false⟩ := by
  rw [afterSolidify_entity, afterSolidify_world]
  norm_num [moved, sampleEnv, sampleMovement, pond, PosFromVec3, Int.floor_lt,
    Int.floor_eq_iff, stone, air, water, concretePowder]

theorem summitSand_highlands_moved :
    moved sampleEnv summitSand (highlands [Entity.fallingBlock 7]) =
      ⟨⟨1 / 2, 256 + 1 / 100, 1 / 2⟩, ⟨0, 0, 0⟩, true⟩ := by
  norm_num [moved, sampleEnv, sampleMovement, summitSand, NewFallingBlock, highlands,
    PosFromVec3, Vec3.zero, Int.floor_lt, stone, air]

theorem summitSand_highlands_destination :
    destination sampleEnv summitSand (highlands [Entity.fallingBlock 7]) = ⟨0, 256, 0⟩ := by
  rw [destination, summitSand_highlands_moved]
  norm_num [PosFromVec3, Int.floor_eq_iff]

theorem summitSand_highlands_terminal :
    terminal sampleEnv summitSand (highlands [Entity.fallingBlock 7]) = true := by
  simp [terminal, summitSand_highlands_moved]

theorem landedSand_entity :
    landedSand.1 =
      ⟨7, sand, ⟨0, 1, 0⟩, ⟨1 / 2, 1 / 100, 1 / 2⟩, ⟨4 / 100, true, 2 / 100, true⟩⟩ := by
  show ((restingSand.Tick sampleEnv (meadow [Entity.fallingBlock 7]) 0).1.SetVelocity
    ⟨0, 1, 0⟩) = _
  rw [tick_entity, restingSand_meadow_moved]
  rfl

theorem landedSand_world :
    landedSand.2 =
      ⟨fun q => if q = ⟨0, 0, 0⟩ then sand else (meadow []).blocks q, [],
        (meadow []).valid⟩ := by
  have hin : inWorld restingSand (meadow [Entity.fallingBlock 7]) := by
    simp [inWorld, restingSand, NewFallingBlock, meadow]
  show (restingSand.Tick sampleEnv (meadow [Entity.fallingBlock 7]) 0).2.world = _
  rw [tick_world_terminal _ _ _ _ restingSand_meadow_terminal, resolved_world_in _ _ _ hin,
    restingSand_meadow_destination]
  simp [replaceableBy, sampleEnv, meadow, withoutEntity, restingSand, NewFallingBlock, air,
    water, stone]

theorem landedSand_moved :
    moved sampleEnv landedSand.1 landedSand.2 =
      ⟨⟨1 / 2, 19 / 20, 1 / 2⟩, ⟨0, 47 / 50, 0⟩, false⟩ := by
  rw [landedSand_entity, landedSand_world]
  norm_num [moved, sampleEnv, sampleMovement, meadow, PosFromVec3, Int.floor_lt,
    Int.floor_eq_iff, stone, air, sand]

theorem landedSand_terminal : terminal sampleEnv landedSand.1 landedSand.2 = false := by
  have hs : solidifiesAt sampleEnv landedSand.1 landedSand.2
      (destination sampleEnv landedSand.1 landedSand.2) = false := by
    rw [landedSand_entity]
    simp [solidifiesAt, sampleEnv, sand, concretePowder]
  rw [terminal, hs, landedSand_moved]
  rfl

/-! ## Claims -/

/-- C1, as stated, fails: sand comes to rest just above the topmost layer of the highlands,
so its destination cell lies above the valid cells of the world. The tick is terminal, the
air reported for that cell is replaceable by sand, and the tick calls the placement there,
but the world drops it: after the tick the cell holds air, not the payload. -/
theorem tick_replaceable_outside_range_counterexample :
    inWorld summitSand (highlands [Entity.fallingBlock 7]) ∧
    terminal sampleEnv summitSand (highlands [Entity.fallingBlock 7]) = true ∧
    destination sampleEnv summitSand (highlands [Entity.fallingBlock 7]) = ⟨0, 256, 0⟩ ∧
    replaceableBy sampleEnv ((highlands [Entity.fallingBlock 7]).blocks ⟨0, 256, 0⟩)
      summitSand.block = true ∧
    Call.placeBlock ⟨0, 256, 0⟩ summitSand.block ∈
      (summitSand.Tick sampleEnv (highlands [Entity.fallingBlock 7]) 0).2.calls ∧
    (summitSand.Tick sampleEnv (highlands [Entity.fallingBlock 7]) 0).2.world.blocks
      ⟨0, 256, 0⟩ = air ∧
    (summitSand.Tick sampleEnv (highlands [Entity.fallingBlock 7]) 0).2.world.blocks
      ⟨0, 256, 0⟩ ≠ summitSand.block := by
  have hin : inWorld summitSand (highlands [Entity.fallingBlock 7]) := by
    simp [inWorld, summitSand, NewFallingBlock, highlands]
  have hrep : replaceableBy sampleEnv ((highlands [Entity.fallingBlock 7]).blocks ⟨0, 256, 0⟩)
      summitSand.block = true := by
    simp [replaceableBy, sampleEnv, highlands]
  have hocc : occupant sampleEnv summitSand (highlands [Entity.fallingBlock 7]) =
      (highlands [Entity.fallingBlock 7]).blocks ⟨0, 256, 0⟩ := by
    rw [occupant, world_of_inWorld hin, summitSand_highlands_destination]
  have hb : (summitSand.Tick sampleEnv (highlands [Entity.fallingBlock 7]) 0).2.world.blocks
      ⟨0, 256, 0⟩ = air := by
    rw [tick_world_terminal _ _ _ _ summitSand_highlands_terminal,
      resolved_world_in _ _ _ hin, summitSand_highlands_destination, if_pos hrep]
    simp [highlands, withoutEntity]
  refine ⟨hin, summitSand_highlands_terminal, summitSand_highlands_destination, hrep, ?_, hb,
    ?_⟩
  · rw [tick_terminal_calls _ _ _ _ summitSand_highlands_terminal]
    simp [outcomeCalls, hocc, hrep, summitSand_highlands_destination]
  · rw [hb]
    simp [summitSand, NewFallingBlock, air, sand]

/-- C1, amended: when a falling block that is in a world has a terminal tick and the block
occupying the destination cell has the replaceability capability and reports that it is
replaceable by the payload, then the calls made on the world are the block query, the
placement of the payload at the destination cell and the removal, in this order; when the
destination cell is a valid cell of the world, the payload is the block at that cell after
the tick; every other cell is as before, and the live entity set is the old one without the
falling block (so no item entity was added and the falling block is gone). -/
theorem tick_replaceable_places_payload (env : Env) (f : FallingBlock) (w : World) (n : Int)
    (hin : inWorld f w) (hterm : terminal env f w = true)
    (hrep : replaceableBy env (w.blocks (destination env f w)) f.block = true) :
    (w.valid (destination env f w) = true →
      (f.Tick env w n).2.world.blocks (destination env f w) = f.block) ∧
    (∀ q, q ≠ destination env f w → (f.Tick env w n).2.world.blocks q = w.blocks q) ∧
    (f.Tick env w n).2.world.entities =
      w.entities.filter (fun x => decide (x ≠ Entity.fallingBlock f.addr)) ∧
    (∀ e, e ∈ (f.Tick env w n).2.world.entities → e ∈ w.entities) ∧
    (∀ e, Call.addEntity e ∉ (f.Tick env w n).2.calls) ∧
    Entity.fallingBlock f.addr ∉ (f.Tick env w n).2.world.entities ∧
    (f.Tick env w n).2.calls =
      [Call.block (destination env f w), Call.placeBlock (destination env f w) f.block,
        Call.removeEntity (Entity.fallingBlock f.addr)] := by
  have hocc : occupant env f w = w.blocks (destination env f w) := by
    unfold occupant; rw [world_of_inWorld hin]
  have hw : (f.Tick env w n).2.world =
      withoutEntity
        (if w.valid (destination env f w) then
          { w with
            blocks := fun q => if q = destination env f w then f.block else w.blocks q }
        else w)
        (Entity.fallingBlock f.addr) := by
    rw [tick_world_terminal env f w n hterm, resolved_world_in env f w hin]
    simp [hrep]
  have hc : (f.Tick env w n).2.calls =
      [Call.block (destination env f w), Call.placeBlock (destination env f w) f.block,
        Call.removeEntity (Entity.fallingBlock f.addr)] := by
    rw [tick_world_terminal env f w n hterm, resolved_calls]
    simp [outcomeCalls, hocc, hrep]
  refine ⟨?_, ?_, ?_, ?_, ?_, ?_, hc⟩
  · intro hv; rw [hw]; simp [withoutEntity, hv]
  · intro q hq; rw [hw]
    by_cases hv : w.valid (destination env f w) = true <;> simp [withoutEntity, hv, hq]
  · rw [hw]
    by_cases hv : w.valid (destination env f w) = true <;> simp [withoutEntity, hv]
  · intro e he; rw [hw] at he
    have he2 : e ∈ w.entities.filter (fun x => decide (x ≠ Entity.fallingBlock f.addr)) := by
      by_cases hv : w.valid (destination env f w) = true <;>
        simpa [withoutEntity, hv] using he
    exact (List.mem_filter.mp he2).1
  · intro e he; rw [hc] at he; simp at he
  · rw [hw]; exact not_mem_withoutEntity _ _

/-- C2: when a tick is terminal, the occupant of the destination cell is not replaceable by
the payload and the payload is representable as an item, the tick queries the block, adds one
item entity (a one-unit stack of the payload, at the position the tick committed, with zero
velocity), removes the falling block, and makes no placement call. For a falling block in a
world the live entity set after the tick is the old one without the falling block and with
that single item entity appended, and every cell holds the block it held before. -/
theorem tick_unreplaceable_drops_item (env : Env) (f : FallingBlock) (w : World) (n : Int)
    (hterm : terminal env f w = true)
    (hrep : replaceableBy env (occupant env f w) f.block = false)
    (hitem : env.item f.block = true) :
    (f.Tick env w n).2.calls =
      [Call.block (destination env f w),
        Call.addEntity
          (Entity.item ⟨⟨f.block, 1⟩, (f.Tick env w n).1.Position, Vec3.zero⟩),
        Call.removeEntity (Entity.fallingBlock f.addr)] ∧
    (∀ p b, Call.placeBlock p b ∉ (f.Tick env w n).2.calls) ∧
    (inWorld f w →
      (f.Tick env w n).2.world.entities =
        w.entities.filter (fun x => decide (x ≠ Entity.fallingBlock f.addr)) ++
          [Entity.item ⟨⟨f.block, 1⟩, (f.Tick env w n).1.Position, Vec3.zero⟩] ∧
      (f.Tick env w n).2.world.blocks = w.blocks ∧
      Entity.fallingBlock f.addr ∉ (f.Tick env w n).2.world.entities) := by
  have hpos : (f.Tick env w n).1.Position = (moved env f w).pos := by
    rw [tick_entity]; rfl
  have hc : (f.Tick env w n).2.calls =
      [Call.block (destination env f w),
        Call.addEntity
          (Entity.item ⟨⟨f.block, 1⟩, (f.Tick env w n).1.Position, Vec3.zero⟩),
        Call.removeEntity (Entity.fallingBlock f.addr)] := by
    rw [hpos, tick_world_terminal env f w n hterm, resolved_calls]
    simp [outcomeCalls, hrep, hitem, droppedItem]
  refine ⟨hc, ?_, ?_⟩
  · intro p b hmem; rw [hc] at hmem; simp at hmem
  · intro hin
    have hocc : occupant env f w = w.blocks (destination env f w) := by
      unfold occupant; rw [world_of_inWorld hin]
    rw [hocc] at hrep
    have hw : (f.Tick env w n).2.world =
        withoutEntity { w with entities := w.entities ++ [droppedItem env f w] }
          (Entity.fallingBlock f.addr) := by
      rw [tick_world_terminal env f w n hterm, resolved_world_in env f w hin]
      simp [hrep, hitem]
    refine ⟨?_, ?_, ?_⟩
    · rw [hw, hpos]; simp [withoutEntity, droppedItem, List.filter_append]
    · rw [hw]; rfl
    · rw [hw]; exact not_mem_withoutEntity _ _

/-- C3: when a tick is terminal, the occupant of the destination cell is not replaceable by
the payload and the payload is not representable as an item, the tick (a total function, so
nothing is raised) queries the block and removes the falling block and does nothing else:
every cell holds the block it held before, the live entity set is the old one without the
falling block, and no placement and no entity addition is among the calls. -/
theorem tick_unreplaceable_undroppable_vanishes (env : Env) (f : FallingBlock) (w : World)
    (n : Int) (hterm : terminal env f w = true)
    (hrep : replaceableBy env (occupant env f w) f.block = false)
    (hitem : env.item f.block = false) :
    (f.Tick env w n).2.world.blocks = w.blocks ∧
    (f.Tick env w n).2.world.entities =
      w.entities.filter (fun x => decide (x ≠ Entity.fallingBlock f.addr)) ∧
    Entity.fallingBlock f.addr ∉ (f.Tick env w n).2.world.entities ∧
    (f.Tick env w n).2.calls =
      [Call.block (destination env f w), Call.removeEntity (Entity.fallingBlock f.addr)] ∧
    (∀ p b, Call.placeBlock p b ∉ (f.Tick env w n).2.calls) ∧
    (∀ e, Call.addEntity e ∉ (f.Tick env w n).2.calls) := by
  have hc : (f.Tick env w n).2.calls =
      [Call.block (destination env f w), Call.removeEntity (Entity.fallingBlock f.addr)] := by
    rw [tick_world_terminal env f w n hterm, resolved_calls]
    simp [outcomeCalls, hrep, hitem]
  have hw : (f.Tick env w n).2.world = withoutEntity w (Entity.fallingBlock f.addr) := by
    rw [tick_world_terminal env f w n hterm]
    by_cases hin : inWorld f w
    · have hocc : occupant env f w = w.blocks (destination env f w) := by
        unfold occupant; rw [world_of_inWorld hin]
      rw [hocc] at hrep
      rw [resolved_world_in env f w hin]
      simp [hrep, hitem]
    · rw [resolved_world_out env f w hin, withoutEntity_of_not_mem w _ hin]
  refine ⟨?_, ?_, ?_, hc, ?_, ?_⟩
  · rw [hw]; rfl
  · rw [hw]; rfl
  · rw [hw]; exact not_mem_withoutEntity _ _
  · intro p b hmem; rw [hc] at hmem; simp at hmem
  · intro e hmem; rw [hc] at hmem; simp at hmem

/-- Witness for C1, amended: sand resting over an air cell of the meadow, a valid cell, is
placed there. -/
theorem tick_replaceable_places_payload_witness :
    inWorld restingSand (meadow [Entity.fallingBlock 7]) ∧
    terminal sampleEnv restingSand (meadow [Entity.fallingBlock 7]) = true ∧
    (restingSand.Tick sampleEnv (meadow [Entity.fallingBlock 7]) 0).2.world.blocks ⟨0, 0, 0⟩ =
      sand ∧
    (restingSand.Tick sampleEnv (meadow [Entity.fallingBlock 7]) 0).2.world.entities = [] := by
  have hin : inWorld restingSand (meadow [Entity.fallingBlock 7]) := by
    simp [inWorld, restingSand, NewFallingBlock, meadow]
  have hrep : replaceableBy sampleEnv
      ((meadow [Entity.fallingBlock 7]).blocks
        (destination sampleEnv restingSand (meadow [Entity.fallingBlock 7])))
      restingSand.block = true := by
    rw [restingSand_meadow_destination]
    simp [replaceableBy, sampleEnv, meadow]
  have h := tick_replaceable_places_payload sampleEnv restingSand
    (meadow [Entity.fallingBlock 7]) 0 hin restingSand_meadow_terminal hrep
  rw [restingSand_meadow_destination] at h
  refine ⟨hin, restingSand_meadow_terminal, h.1 (by simp [meadow]), ?_⟩
  rw [h.2.2.1]
  simp [meadow, restingSand, NewFallingBlock]

/-- Witness for C2: sand resting in a torch cell is dropped as an item. The example
`NewItem` leaves an upward velocity in the new item entity; the tick sets it to zero. -/
theorem tick_unreplaceable_drops_item_witness :
    terminal sampleEnv restingSand (torchField [Entity.fallingBlock 7]) = true ∧
    (restingSand.Tick sampleEnv (torchField [Entity.fallingBlock 7]) 0).2.world.entities =
      [Entity.item ⟨⟨sand, 1⟩, ⟨1 / 2, 1 / 100, 1 / 2⟩, Vec3.zero⟩] := by
  have hin : inWorld restingSand (torchField [Entity.fallingBlock 7]) := by
    simp [inWorld, restingSand, NewFallingBlock, torchField]
  have hrep : replaceableBy sampleEnv
      (occupant sampleEnv restingSand (torchField [Entity.fallingBlock 7]))
      restingSand.block = false := by
    rw [restingSand_torchField_occupant]
    simp [replaceableBy, sampleEnv, torch, air, water]
  have hitem : sampleEnv.item restingSand.block = true := by
    simp [sampleEnv, restingSand, NewFallingBlock]
  have h := tick_unreplaceable_drops_item sampleEnv restingSand
    (torchField [Entity.fallingBlock 7]) 0 restingSand_torchField_terminal hrep hitem
  refine ⟨restingSand_torchField_terminal, ?_⟩
  rw [(h.2.2 hin).1, tick_entity, restingSand_torchField_moved]
  simp [torchField, restingSand, NewFallingBlock, committed, FallingBlock.Position]

/-- Witness for C3: a moving piston part resting in a torch cell vanishes. -/
theorem tick_unreplaceable_undroppable_vanishes_witness :
    terminal sampleEnv restingPiston (torchField [Entity.fallingBlock 7]) = true ∧
    (restingPiston.Tick sampleEnv (torchField [Entity.fallingBlock 7]) 0).2.world.entities =
      [] := by
  have hrep : replaceableBy sampleEnv
      (occupant sampleEnv restingPiston (torchField [Entity.fallingBlock 7]))
      restingPiston.block = false := by
    rw [restingPiston_torchField_occupant]
    simp [replaceableBy, sampleEnv, torch, air, water]
  have hitem : sampleEnv.item restingPiston.block = false := by
    simp [sampleEnv, restingPiston, NewFallingBlock, movingPiston, sand, concretePowder]
  have h := tick_unreplaceable_undroppable_vanishes sampleEnv restingPiston
    (torchField [Entity.fallingBlock 7]) 0 restingPiston_torchField_terminal hrep hitem
  refine ⟨restingPiston_torchField_terminal, ?_⟩
  rw [h.2.1]
  simp [torchField, restingPiston, NewFallingBlock]

/-- C4, as stated, fails: concrete powder is constructed just above a water surface, in a
cell where its solidification predicate holds; the first tick moves it into the cell below,
where the predicate does not hold, and the movement computer reports no ground contact, so
the tick makes no call on the world and the entity is still registered. -/
theorem first_tick_solidifies_at_spawn_counterexample :
    sinkingPowder = NewFallingBlock 7 concretePowder ⟨1 / 2, 1 / 50, 1 / 2⟩ ∧
    inWorld sinkingPowder (pond [Entity.fallingBlock 7]) ∧
    solidifiesAt sampleEnv sinkingPowder (pond [Entity.fallingBlock 7])
      (PosFromVec3 sinkingPowder.Position) = true ∧
    (sinkingPowder.Tick sampleEnv (pond [Entity.fallingBlock 7]) 0).2.calls = [] ∧
    Entity.fallingBlock 7 ∈
      (sinkingPowder.Tick sampleEnv (pond [Entity.fallingBlock 7]) 0).2.world.entities := by
  have hin : inWorld sinkingPowder (pond [Entity.fallingBlock 7]) := by
    simp [inWorld, sinkingPowder, NewFallingBlock, pond]
  have hcell : PosFromVec3 sinkingPowder.Position = ⟨0, 0, 0⟩ := by
    norm_num [PosFromVec3, sinkingPowder, NewFallingBlock, FallingBlock.Position,
      Int.floor_eq_iff]
  refine ⟨rfl, hin, ?_, ?_, ?_⟩
  · rw [hcell]
    simp [solidifiesAt, sampleEnv, sinkingPowder, NewFallingBlock, FallingBlock.World, pond]
  · rw [tick_not_terminal _ _ _ _ sinkingPowder_pond_terminal]
  · rw [tick_not_terminal _ _ _ _ sinkingPowder_pond_terminal]
    simp [pond]

/-- C4, amended: when the payload of a freshly constructed falling block has the
solidification capability and its predicate holds at the destination cell of the first tick
(the cell containing the position the movement computer outputs in that tick), the first
tick is terminal whatever ground-contact flag the movement computer reports: it calls the
removal, and afterwards the entity is not in the live entity set. -/
theorem first_tick_solidifying_at_destination_is_terminal (env : Env) (addr : Nat)
    (b : Block) (p : Vec3) (w : World) (n : Int)
    (hsol : solidifiesAt env (NewFallingBlock addr b p) w
      (destination env (NewFallingBlock addr b p) w) = true) :
    Call.removeEntity (Entity.fallingBlock addr) ∈
      ((NewFallingBlock addr b p).Tick env w n).2.calls ∧
    Entity.fallingBlock addr ∉ ((NewFallingBlock addr b p).Tick env w n).2.world.entities := by
  have hterm : terminal env (NewFallingBlock addr b p) w = true := by
    simp [terminal, hsol]
  constructor
  · rw [tick_terminal_calls env _ w n hterm]
    simp [NewFallingBlock]
  · exact tick_terminal_not_mem env (NewFallingBlock addr b p) w n hterm

/-- Witness for C4, amended: concrete powder constructed half a block above a water surface
solidifies in its first tick, in mid-air. -/
theorem first_tick_solidifying_at_destination_is_terminal_witness :
    (moved sampleEnv hoveringPowder (pond [Entity.fallingBlock 7])).onGround = false ∧
    Call.removeEntity (Entity.fallingBlock 7) ∈
      (hoveringPowder.Tick sampleEnv (pond [Entity.fallingBlock 7]) 0).2.calls ∧
    Entity.fallingBlock 7 ∉
      (hoveringPowder.Tick sampleEnv (pond [Entity.fallingBlock 7]) 0).2.world.entities :=
  ⟨by rw [hoveringPowder_pond_moved],
    first_tick_solidifying_at_destination_is_terminal sampleEnv 7 concretePowder
      ⟨1 / 2, 1 / 2, 1 / 2⟩ (pond [Entity.fallingBlock 7]) 0 hoveringPowder_pond_solidifies⟩

/-- C5: in every terminal tick, whichever branch is taken, the last call made on the world
is the removal of the falling block, and after the tick the falling block is not in the live
entity set: it is not registered in the world any more. -/
theorem terminal_tick_removes_entity_last (env : Env) (f : FallingBlock) (w : World)
    (n : Int) (hterm : terminal env f w = true) :
    (f.Tick env w n).2.calls.getLast? =
      some (Call.removeEntity (Entity.fallingBlock f.addr)) ∧
    Entity.fallingBlock f.addr ∉ (f.Tick env w n).2.world.entities ∧
    ¬ inWorld (f.Tick env w n).1 (f.Tick env w n).2.world ∧
    (f.Tick env w n).1.World (f.Tick env w n).2.world = none := by
  have hmem := tick_terminal_not_mem env f w n hterm
  have hout : ¬ inWorld (f.Tick env w n).1 (f.Tick env w n).2.world := by
    unfold inWorld
    rw [tick_entity]
    exact hmem
  refine ⟨?_, hmem, hout, world_of_not_inWorld hout⟩
  rw [tick_terminal_calls env f w n hterm]
  rw [← List.cons_append, List.getLast?_append]
  simp

/-- Witness for C5: the terminal tick of sand resting in a torch cell. -/
theorem terminal_tick_removes_entity_last_witness :
    (restingSand.Tick sampleEnv (torchField [Entity.fallingBlock 7]) 0).2.calls.getLast? =
      some (Call.removeEntity (Entity.fallingBlock 7)) ∧
    Entity.fallingBlock 7 ∉
      (restingSand.Tick sampleEnv (torchField [Entity.fallingBlock 7]) 0).2.world.entities :=
  ⟨(terminal_tick_removes_entity_last sampleEnv restingSand
      (torchField [Entity.fallingBlock 7]) 0 restingSand_torchField_terminal).1,
    (terminal_tick_removes_entity_last sampleEnv restingSand
      (torchField [Entity.fallingBlock 7]) 0 restingSand_torchField_terminal).2.1⟩

/-- C6, as stated, fails: sand that landed in the meadow (its movement computer reported
ground contact) is given an upward velocity and ticked again. This tick is not terminal, and
besides the position and the velocity it changes the ground-contact flag of the movement
computer of the entity, from true to false. -/
theorem non_terminal_tick_changes_ground_flag_counterexample :
    terminal sampleEnv landedSand.1 landedSand.2 = false ∧
    landedSand.1.c.OnGround = true ∧
    (landedSand.1.Tick sampleEnv landedSand.2 1).1.c.OnGround = false ∧
    (landedSand.1.Tick sampleEnv landedSand.2 1).1 ≠
      { landedSand.1 with
        pos := (landedSand.1.Tick sampleEnv landedSand.2 1).1.pos,
        velocity := (landedSand.1.Tick sampleEnv landedSand.2 1).1.velocity } := by
  have h1 : landedSand.1.c.OnGround = true := by
    rw [landedSand_entity]; rfl
  have h2 : (landedSand.1.Tick sampleEnv landedSand.2 1).1.c.OnGround = false := by
    rw [tick_entity, landedSand_moved]
    rfl
  refine ⟨landedSand_terminal, h1, h2, ?_⟩
  intro h
  have h3 := congrArg (fun g : FallingBlock => g.c.OnGround) h
  simp only at h3
  rw [h2] at h3
  have h4 : landedSand.1.c.OnGround = false := h3.symm
  rw [h1] at h4
  exact Bool.noConfusion h4

/-- C6, amended: in a tick that is not terminal the world after the tick is the world before
it and no call is made on the world, so the entity is registered exactly if it was; of the
entity, the position and the velocity are set to the outputs of the movement computer and
the ground-contact flag of the movement computer is set to the reported value, false; every
other field is as before, so when the flag was false before the tick only the position and
the velocity change. -/
theorem non_terminal_tick_leaves_world (env : Env) (f : FallingBlock) (w : World) (n : Int)
    (hterm : terminal env f w = false) :
    (f.Tick env w n).2.world = w ∧
    (f.Tick env w n).2.calls = [] ∧
    (inWorld (f.Tick env w n).1 (f.Tick env w n).2.world ↔ inWorld f w) ∧
    (f.Tick env w n).1 =
      { f with pos := (moved env f w).pos, velocity := (moved env f w).vel,
               c := { f.c with onGround := false } } ∧
    (f.c.onGround = false →
      (f.Tick env w n).1 =
        { f with pos := (moved env f w).pos, velocity := (moved env f w).vel }) := by
  have hg : (moved env f w).onGround = false := by
    unfold terminal at hterm
    cases hb : (moved env f w).onGround
    · rfl
    · rw [hb] at hterm; simp at hterm
  have he : (f.Tick env w n).1 =
      { f with pos := (moved env f w).pos, velocity := (moved env f w).vel,
               c := { f.c with onGround := false } } := by
    rw [tick_entity, committed, hg]
  refine ⟨?_, ?_, ?_, he, ?_⟩
  · rw [tick_not_terminal env f w n hterm]
  · rw [tick_not_terminal env f w n hterm]
  · rw [tick_not_terminal env f w n hterm, tick_entity]; exact Iff.rfl
  · intro h0
    rw [he]
    cases f with
    | mk addr block velocity pos c =>
      cases c with
      | mk g d dr og =>
        simp only at h0
        subst h0
        rfl

/-- Witness for C6: sand high above the meadow keeps falling. -/
theorem non_terminal_tick_leaves_world_witness :
    (fallingSand.Tick sampleEnv (meadow [Entity.fallingBlock 7]) 0).2.calls = [] ∧
    (fallingSand.Tick sampleEnv (meadow [Entity.fallingBlock 7]) 0).2.world =
      meadow [Entity.fallingBlock 7] :=
  ⟨(non_terminal_tick_leaves_world sampleEnv fallingSand (meadow [Entity.fallingBlock 7]) 0
      fallingSand_meadow_terminal).2.1,
    (non_terminal_tick_leaves_world sampleEnv fallingSand (meadow [Entity.fallingBlock 7]) 0
      fallingSand_meadow_terminal).1⟩

/-- C7, as stated, fails: the concrete powder that solidified in mid-air and was removed from
its world by its first tick is ticked once more; this tick runs the movement computation and
stores its outputs, so the position and the velocity of the removed entity change. -/
theorem tick_after_removal_counterexample :
    ¬ inWorld afterSolidify.1 afterSolidify.2 ∧
    (afterSolidify.1.Tick sampleEnv afterSolidify.2 1).1.Position ≠
      afterSolidify.1.Position ∧
    (afterSolidify.1.Tick sampleEnv afterSolidify.2 1).1.Velocity ≠
      afterSolidify.1.Velocity := by
  refine ⟨?_, ?_, ?_⟩
  · rw [inWorld, afterSolidify_world]
    simp
  · rw [tick_entity, afterSolidify_moved, afterSolidify_entity]
    norm_num [committed, FallingBlock.Position]
  · rw [tick_entity, afterSolidify_moved, afterSolidify_entity]
    norm_num [committed, FallingBlock.Velocity]

/-- C7, amended: a tick of a falling block that is not registered in the world leaves the
world as it is (no block is placed, no entity is added or removed), and it is a total
function, so it does not fail; it still runs the movement computation and overwrites the
position and the velocity of the entity with the outputs of the movement computer. -/
theorem tick_of_removed_block (env : Env) (f : FallingBlock) (w : World) (n : Int)
    (hout : ¬ inWorld f w) :
    (f.Tick env w n).2.world = w ∧
    (f.Tick env w n).1.Position = (moved env f w).pos ∧
    (f.Tick env w n).1.Velocity = (moved env f w).vel := by
  refine ⟨tick_world_out env f w n hout, ?_, ?_⟩
  · rw [tick_entity]; rfl
  · rw [tick_entity]; rfl

/-- Witness for C7, amended: the removed concrete powder, ticked once more. -/
theorem tick_of_removed_block_witness :
    ¬ inWorld afterSolidify.1 afterSolidify.2 ∧
    (afterSolidify.1.Tick sampleEnv afterSolidify.2 1).2.world = afterSolidify.2 := by
  have hout : ¬ inWorld afterSolidify.1 afterSolidify.2 := by
    rw [inWorld, afterSolidify_world]
    simp
  exact ⟨hout, (tick_of_removed_block sampleEnv afterSolidify.1 afterSolidify.2 1 hout).1⟩

/-- C8: after any sequence of method calls on a falling block, a further `Tick` leaves as
position exactly the position the movement computer outputs for the position and velocity
before that tick, and every other method (`SetVelocity`, `Close`, `Block`, `Velocity`,
`AABB`, `Rotation` and the remaining accessors) leaves the position as it was. -/
theorem position_changes_only_in_tick (env : Env) (ms : List Method) (m : Method)
    (st : FallingBlock × World) :
    (FallingBlock.call env m (FallingBlock.run env ms st)).1.1.Position =
      match m with
      | Method.Tick _ =>
        (env.tickMovement (FallingBlock.run env ms st).1.c (FallingBlock.run env ms st).1
          (FallingBlock.run env ms st).2 (FallingBlock.run env ms st).1.Position
          (FallingBlock.run env ms st).1.Velocity).pos
      | _ => (FallingBlock.run env ms st).1.Position := by
  cases m <;> first
    | rfl
    | (simp only [FallingBlock.call]; rw [tick_entity]; rfl)

/-- C9: a missing capability counts as false. When the payload lacks the solidification
capability, the tick is terminal (it calls the removal) exactly if the movement computer
reports on-ground. When the occupant of the destination cell lacks the replaceability
capability, the tick makes no placement call and every cell holds the block it held before;
if it is terminal, its calls are the block query, the item drop when the payload is an item,
and the removal. -/
theorem absent_capability_counts_as_false (env : Env) (f : FallingBlock) (w : World)
    (n : Int) :
    (env.solidifiable f.block = none →
      (terminal env f w = (moved env f w).onGround) ∧
      (Call.removeEntity (Entity.fallingBlock f.addr) ∈ (f.Tick env w n).2.calls ↔
        (moved env f w).onGround = true)) ∧
    (env.replaceable (occupant env f w) = none →
      (∀ p b, Call.placeBlock p b ∉ (f.Tick env w n).2.calls) ∧
      (f.Tick env w n).2.world.blocks = w.blocks ∧
      (terminal env f w = true →
        (f.Tick env w n).2.calls =
          Call.block (destination env f w) ::
            ((if env.item f.block then [Call.addEntity (droppedItem env f w)] else []) ++
              [Call.removeEntity (Entity.fallingBlock f.addr)]))) := by
  constructor
  · intro hcap
    have ht : terminal env f w = (moved env f w).onGround := by
      simp [terminal, solidifiesAt, hcap]
    refine ⟨ht, ?_⟩
    cases hg : (moved env f w).onGround
    · rw [hg] at ht
      rw [tick_not_terminal env f w n ht]
      simp
    · rw [hg] at ht
      rw [tick_terminal_calls env f w n ht]
      simp
  · intro hcap
    have hrep : replaceableBy env (occupant env f w) f.block = false := by
      simp [replaceableBy, hcap]
    have hout : outcomeCalls env f w =
        if env.item f.block then [Call.addEntity (droppedItem env f w)] else [] := by
      simp [outcomeCalls, hrep]
    cases hterm : terminal env f w
    · rw [tick_not_terminal env f w n hterm]
      simp
    · have hc := tick_terminal_calls env f w n hterm
      rw [hout] at hc
      refine ⟨?_, ?_, fun _ => hc⟩
      · intro p b hmem
        rw [hc] at hmem
        by_cases hi : env.item f.block = true <;> simp [hi] at hmem
      · rw [tick_world_terminal env f w n hterm]
        by_cases hin : inWorld f w
        · have hocc : occupant env f w = w.blocks (destination env f w) := by
            unfold occupant; rw [world_of_inWorld hin]
          rw [hocc] at hrep
          rw [resolved_world_in env f w hin]
          by_cases hi : env.item f.block = true <;> simp [hrep, hi, withoutEntity]
        · rw [resolved_world_out env f w hin]

/-- Witness for C9: sand, which cannot solidify, resting in a torch cell, which is not
replaceable. -/
theorem absent_capability_counts_as_false_witness :
    sampleEnv.solidifiable restingSand.block = none ∧
    sampleEnv.replaceable
      (occupant sampleEnv restingSand (torchField [Entity.fallingBlock 7])) = none ∧
    terminal sampleEnv restingSand (torchField [Entity.fallingBlock 7]) = true ∧
    (∀ p b, Call.placeBlock p b ∉
      (restingSand.Tick sampleEnv (torchField [Entity.fallingBlock 7]) 0).2.calls) := by
  have h1 : sampleEnv.solidifiable restingSand.block = none := by
    simp [sampleEnv, restingSand, NewFallingBlock, sand, concretePowder]
  have h2 : sampleEnv.replaceable
      (occupant sampleEnv restingSand (torchField [Entity.fallingBlock 7])) = none := by
    rw [restingSand_torchField_occupant]
    simp [sampleEnv, torch, air, water]
  have h := absent_capability_counts_as_false sampleEnv restingSand
    (torchField [Entity.fallingBlock 7]) 0
  exact ⟨h1, h2, (h.1 h1).1.trans (by rw [restingSand_torchField_moved]), (h.2 h2).1⟩

/-- C10: among the calls a single tick makes on the world, the placements and the entity
additions together number at most one, so no tick contains both a placement and an entity
addition. -/
theorem tick_places_or_adds_not_both (env : Env) (f : FallingBlock) (w : World) (n : Int) :
    ((f.Tick env w n).2.calls.filter Call.isPlaceBlock).length +
      ((f.Tick env w n).2.calls.filter Call.isAddEntity).length ≤ 1 ∧
    ¬ ((∃ p b, Call.placeBlock p b ∈ (f.Tick env w n).2.calls) ∧
        (∃ e, Call.addEntity e ∈ (f.Tick env w n).2.calls)) := by
  have hcount : ((f.Tick env w n).2.calls.filter Call.isPlaceBlock).length +
      ((f.Tick env w n).2.calls.filter Call.isAddEntity).length ≤ 1 := by
    cases hterm : terminal env f w
    · rw [tick_not_terminal env f w n hterm]
      simp
    · rw [tick_terminal_calls env f w n hterm]
      have h := outcomeCalls_filter env f w
      simpa [List.filter_cons, List.filter_append, Call.isPlaceBlock, Call.isAddEntity]
        using h
  refine ⟨hcount, ?_⟩
  rintro ⟨⟨p, b, hp⟩, ⟨e, he⟩⟩
  have h1 : 0 < ((f.Tick env w n).2.calls.filter Call.isPlaceBlock).length :=
    List.length_pos_of_mem (List.mem_filter.mpr ⟨hp, rfl⟩)
  have h2 : 0 < ((f.Tick env w n).2.calls.filter Call.isAddEntity).length :=
    List.length_pos_of_mem (List.mem_filter.mpr ⟨he, rfl⟩)
  omega

/-! ## Call sequences: what no method writes -/

theorem run_cons (env : Env) (m : Method) (ms : List Method) (st : FallingBlock × World) :
    FallingBlock.run env (m :: ms) st =
      FallingBlock.run env ms (FallingBlock.call env m st).1 := rfl

theorem run_preserves (env : Env) (P : FallingBlock → Prop)
    (hstep : ∀ m st, P st.1 → P (FallingBlock.call env m st).1.1) (ms : List Method) :
    ∀ st : FallingBlock × World, P st.1 → P (FallingBlock.run env ms st).1 := by
  induction ms with
  | nil => intro st h; exact h
  | cons m ms ih =>
    intro st h
    rw [run_cons]
    exact ih _ (hstep m st h)

theorem call_block (env : Env) (m : Method) (st : FallingBlock × World) :
    (FallingBlock.call env m st).1.1.block = st.1.block := by
  cases m <;> first
    | rfl
    | (simp only [FallingBlock.call]; rw [tick_entity]; rfl)

theorem call_config (env : Env) (m : Method) (st : FallingBlock × World) :
    (FallingBlock.call env m st).1.1.c.Gravity = st.1.c.Gravity ∧
    (FallingBlock.call env m st).1.1.c.DragBeforeGravity = st.1.c.DragBeforeGravity ∧
    (FallingBlock.call env m st).1.1.c.Drag = st.1.c.Drag := by
  cases m <;> first
    | exact ⟨rfl, rfl, rfl⟩
    | (simp only [FallingBlock.call]; rw [tick_entity]; exact ⟨rfl, rfl, rfl⟩)

/-- C11: the bounding box of every falling block, also after any sequence of method calls,
is the box with corners (-0.49, 0, -0.49) and (0.49, 0.98, 0.49): over the rationals it
spans exactly 0.98 in width and in depth, centred on zero on both horizontal axes, and
reaches from 0 to 0.98 in height. -/
theorem aabb_is_fixed (env : Env) (ms : List Method) (st : FallingBlock × World) :
    (FallingBlock.run env ms st).1.AABB = st.1.AABB ∧
    (FallingBlock.call env Method.AABB (FallingBlock.run env ms st)).2 =
      Value.aabb ⟨⟨-49 / 100, 0, -49 / 100⟩, ⟨49 / 100, 98 / 100, 49 / 100⟩⟩ ∧
    st.1.AABB.min = ⟨-49 / 100, 0, -49 / 100⟩ ∧
    st.1.AABB.max = ⟨49 / 100, 98 / 100, 49 / 100⟩ ∧
    st.1.AABB.max.x - st.1.AABB.min.x = 98 / 100 ∧
    st.1.AABB.max.z - st.1.AABB.min.z = 98 / 100 ∧
    st.1.AABB.min.x + st.1.AABB.max.x = 0 ∧
    st.1.AABB.min.z + st.1.AABB.max.z = 0 ∧
    st.1.AABB.min.y = 0 ∧
    st.1.AABB.max.y - st.1.AABB.min.y = 98 / 100 := by
  refine ⟨rfl, rfl, rfl, rfl, ?_, ?_, ?_, ?_, rfl, ?_⟩ <;>
    norm_num [FallingBlock.AABB, NewAABB]

/-- C12: the payload never changes. The entity built by `NewFallingBlock b p` reports `b`
as its block, and after any sequence of method calls (ticks, velocity changes, and all the
others) `Block` still returns `b`. -/
theorem payload_never_changes (env : Env) (addr : Nat) (b : Block) (p : Vec3) (w : World)
    (ms : List Method) :
    (NewFallingBlock addr b p).Block = b ∧
    (FallingBlock.run env ms (NewFallingBlock addr b p, w)).1.Block = b ∧
    (FallingBlock.call env Method.Block
      (FallingBlock.run env ms (NewFallingBlock addr b p, w))).2 = Value.block b := by
  have h : (FallingBlock.run env ms (NewFallingBlock addr b p, w)).1.block = b :=
    run_preserves env (fun g => g.block = b)
      (fun m st hst => (call_block env m st).trans hst) ms (NewFallingBlock addr b p, w) rfl
  refine ⟨rfl, h, ?_⟩
  show Value.block (FallingBlock.run env ms (NewFallingBlock addr b p, w)).1.block = _
  rw [h]

/-- C13: the entity built by `NewFallingBlock b p` has position `p` and the zero vector as
velocity. -/
theorem new_falling_block_position_velocity (addr : Nat) (b : Block) (p : Vec3) :
    (NewFallingBlock addr b p).Position = p ∧
    (NewFallingBlock addr b p).Velocity = ⟨0, 0, 0⟩ :=
  ⟨rfl, rfl⟩

/-- C14: `Rotation` returns (0, 0) for every falling block: at construction and after any
sequence of method calls. -/
theorem rotation_is_zero (env : Env) (addr : Nat) (b : Block) (p : Vec3) (w : World)
    (ms : List Method) (st : FallingBlock × World) :
    (NewFallingBlock addr b p).Rotation = (0, 0) ∧
    (FallingBlock.run env ms (NewFallingBlock addr b p, w)).1.Rotation = (0, 0) ∧
    (FallingBlock.run env ms st).1.Rotation = (0, 0) ∧
    (FallingBlock.call env Method.Rotation (FallingBlock.run env ms st)).2 =
      Value.rotation 0 0 :=
  ⟨rfl, rfl, rfl, rfl⟩

/-! ## What a tick reads of its collaborators -/

theorem tick_congr (env env2 : Env) (f : FallingBlock) (w : World) (n : Int)
    (hm : env2.tickMovement f.c f w f.pos f.velocity =
      env.tickMovement f.c f w f.pos f.velocity)
    (hs : solidifiesAt env2 f w (destination env f w) =
      solidifiesAt env f w (destination env f w))
    (hn : env2.nilBlock = env.nilBlock)
    (hr : replaceableBy env2 (occupant env f w) f.block =
      replaceableBy env (occupant env f w) f.block)
    (hi : env2.item f.block = env.item f.block) :
    f.Tick env2 w n = f.Tick env w n := by
  have hmoved : moved env2 f w = moved env f w := hm
  have hdest : destination env2 f w = destination env f w := by
    unfold destination; rw [hmoved]
  have hterm : terminal env2 f w = terminal env f w := by
    unfold terminal; rw [hdest, hs, hmoved]
  have hocc : occupant env2 f w = occupant env f w := by
    unfold occupant; rw [hdest, hn]
  have hdrop : droppedItem env2 f w = droppedItem env f w := by
    unfold droppedItem; rw [hmoved]
  have hres : resolved env2 f w = resolved env f w := by
    unfold resolved; rw [hdest, hocc, hr, hi, hdrop]
  rw [tick_eq, tick_eq, hmoved, hterm, hres]

theorem tick_position (env : Env) (f : FallingBlock) (w : World) (n : Int) :
    (f.Tick env w n).1.Position = (moved env f w).pos := by
  rw [tick_entity]; rfl

theorem tick_onGround (env : Env) (f : FallingBlock) (w : World) (n : Int) :
    (f.Tick env w n).1.c.OnGround = (moved env f w).onGround := by
  rw [tick_entity]; rfl

/-- C16: a tick is terminal (it calls the removal) exactly if the solidification predicate
of the payload holds at the cell containing the position this tick stored, which is the
position the movement computer output, or the movement computer reports on-ground after this
tick. Every block query of the tick and every placement of the tick is at that same cell,
the placement happens exactly if the tick is terminal and the block found there is
replaceable by the payload, and of the solidification capability the tick reads nothing but
the answer at that cell: an environment that differs only in the solidification predicates
and gives the same answer at that cell gives the same tick. -/
theorem terminal_iff_and_one_cell (env : Env) (f : FallingBlock) (w : World) (n : Int) :
    (f.Tick env w n).1.Position =
      (env.tickMovement f.c f w f.Position f.Velocity).pos ∧
    (Call.removeEntity (Entity.fallingBlock f.addr) ∈ (f.Tick env w n).2.calls ↔
      (solidifiesAt env f w (PosFromVec3 (f.Tick env w n).1.Position) = true ∨
        (f.Tick env w n).1.c.OnGround = true)) ∧
    ((f.Tick env w n).2.calls ≠ [] ↔
      (solidifiesAt env f w (PosFromVec3 (f.Tick env w n).1.Position) = true ∨
        (f.Tick env w n).1.c.OnGround = true)) ∧
    (∀ p, Call.block p ∈ (f.Tick env w n).2.calls →
      p = PosFromVec3 (f.Tick env w n).1.Position) ∧
    (∀ p b, Call.placeBlock p b ∈ (f.Tick env w n).2.calls →
      p = PosFromVec3 (f.Tick env w n).1.Position ∧ b = f.block) ∧
    (Call.placeBlock (PosFromVec3 (f.Tick env w n).1.Position) f.block ∈
        (f.Tick env w n).2.calls ↔
      ((solidifiesAt env f w (PosFromVec3 (f.Tick env w n).1.Position) = true ∨
          (f.Tick env w n).1.c.OnGround = true) ∧
        replaceableBy env
          (match f.World w with
            | some w0 => w0.blocks (PosFromVec3 (f.Tick env w n).1.Position)
            | none => env.nilBlock) f.block = true)) ∧
    (∀ env2 : Env,
      env2.tickMovement = env.tickMovement → env2.replaceable = env.replaceable →
      env2.item = env.item → env2.nilBlock = env.nilBlock →
      solidifiesAt env2 f w (PosFromVec3 (f.Tick env w n).1.Position) =
        solidifiesAt env f w (PosFromVec3 (f.Tick env w n).1.Position) →
      f.Tick env2 w n = f.Tick env w n) := by
  have hpos : PosFromVec3 (f.Tick env w n).1.Position = destination env f w := by
    rw [tick_position]; rfl
  have hcond : (solidifiesAt env f w (PosFromVec3 (f.Tick env w n).1.Position) = true ∨
      (f.Tick env w n).1.c.OnGround = true) ↔ terminal env f w = true := by
    rw [hpos, tick_onGround]
    simp [terminal]
  have hocc : (match f.World w with
      | some w0 => w0.blocks (PosFromVec3 (f.Tick env w n).1.Position)
      | none => env.nilBlock) = occupant env f w := by
    rw [hpos]; rfl
  rw [hcond, hocc, hpos]
  refine ⟨tick_position env f w n, ?_, ?_, ?_, ?_, ?_, ?_⟩
  · cases hterm : terminal env f w
    · rw [tick_not_terminal env f w n hterm]; simp
    · rw [tick_terminal_calls env f w n hterm]; simp
  · cases hterm : terminal env f w
    · rw [tick_not_terminal env f w n hterm]; simp
    · rw [tick_terminal_calls env f w n hterm]; simp
  · intro p hp
    cases hterm : terminal env f w
    · rw [tick_not_terminal env f w n hterm] at hp; simp at hp
    · rw [tick_terminal_calls env f w n hterm] at hp
      unfold outcomeCalls at hp
      split at hp
      · simpa using hp
      · split at hp <;> simpa using hp
  · intro p b hp
    cases hterm : terminal env f w
    · rw [tick_not_terminal env f w n hterm] at hp; simp at hp
    · rw [tick_terminal_calls env f w n hterm] at hp
      unfold outcomeCalls at hp
      split at hp
      · simpa using hp
      · split at hp <;> simp at hp
  · cases hterm : terminal env f w
    · rw [tick_not_terminal env f w n hterm]; simp
    · rw [tick_terminal_calls env f w n hterm]
      unfold outcomeCalls
      by_cases hrep : replaceableBy env (occupant env f w) f.block = true
      · simp [hrep]
      · by_cases hitem : env.item f.block = true <;> simp [hrep, hitem]
  · intro env2 hm hr hi hn hs
    apply tick_congr env env2 f w n
    · rw [hm]
    · exact hs
    · exact hn
    · unfold replaceableBy; rw [hr]
    · rw [hi]

/-- Witness for C16: for the concrete powder half a block above the water, the environment
in which concrete powder solidifies exactly in the origin cell answers as the example
environment does at the destination cell, and gives the same tick. -/
theorem terminal_iff_and_one_cell_witness :
    originEnv.solidifiable concretePowder ≠ sampleEnv.solidifiable concretePowder ∧
    hoveringPowder.Tick originEnv (pond [Entity.fallingBlock 7]) 0 =
      hoveringPowder.Tick sampleEnv (pond [Entity.fallingBlock 7]) 0 := by
  have hcell : PosFromVec3
      (hoveringPowder.Tick sampleEnv (pond [Entity.fallingBlock 7]) 0).1.Position =
      ⟨0, 0, 0⟩ := by
    rw [tick_position]
    exact hoveringPowder_pond_destination
  have hs : solidifiesAt originEnv hoveringPowder (pond [Entity.fallingBlock 7])
      (PosFromVec3
        (hoveringPowder.Tick sampleEnv (pond [Entity.fallingBlock 7]) 0).1.Position) =
      solidifiesAt sampleEnv hoveringPowder (pond [Entity.fallingBlock 7])
        (PosFromVec3
          (hoveringPowder.Tick sampleEnv (pond [Entity.fallingBlock 7]) 0).1.Position) := by
    rw [hcell]
    simp [solidifiesAt, originEnv, sampleEnv, hoveringPowder, NewFallingBlock,
      FallingBlock.World, pond]
  refine ⟨?_, (terminal_iff_and_one_cell sampleEnv hoveringPowder
    (pond [Entity.fallingBlock 7]) 0).2.2.2.2.2.2 originEnv rfl rfl rfl rfl hs⟩
  intro h
  have h2 : originEnv.solidifiable concretePowder =
      some (fun pos _ => decide (pos = ⟨0, 0, 0⟩)) := by
    simp [originEnv]
  have h3 : sampleEnv.solidifiable concretePowder =
      some (fun pos h =>
        match h with
        | some w => decide (w.blocks ⟨pos.x, pos.y - 1, pos.z⟩ = water)
        | none => false) := by
    simp [sampleEnv]
  rw [h2, h3] at h
  have h4 := congrFun (congrFun (Option.some.inj h) ⟨0, 0, 0⟩) none
  simp at h4

/-- C17: every falling block is constructed with a movement computer that applies drag
before gravity, with gravity 0.04 and drag 0.02, and after any sequence of method calls
(ticks and velocity changes among them) the movement computer of the entity still has this
configuration. -/
theorem movement_configuration_is_fixed (env : Env) (addr : Nat) (b : Block) (p : Vec3)
    (w : World) (ms : List Method) :
    ((NewFallingBlock addr b p).c.DragBeforeGravity = true ∧
      (NewFallingBlock addr b p).c.Gravity = 4 / 100 ∧
      (NewFallingBlock addr b p).c.Drag = 2 / 100) ∧
    ((FallingBlock.run env ms (NewFallingBlock addr b p, w)).1.c.DragBeforeGravity = true ∧
      (FallingBlock.run env ms (NewFallingBlock addr b p, w)).1.c.Gravity = 4 / 100 ∧
      (FallingBlock.run env ms (NewFallingBlock addr b p, w)).1.c.Drag = 2 / 100) := by
  refine ⟨⟨rfl, rfl, rfl⟩, ?_⟩
  have h := run_preserves env
    (fun g => g.c.DragBeforeGravity = true ∧ g.c.Gravity = 4 / 100 ∧ g.c.Drag = 2 / 100)
    (fun m st hst =>
      ⟨(call_config env m st).2.1.trans hst.1, (call_config env m st).1.trans hst.2.1,
        (call_config env m st).2.2.trans hst.2.2⟩)
    ms (NewFallingBlock addr b p, w) ⟨rfl, rfl, rfl⟩
  exact h

/-- C18: right after `SetVelocity v` the method `Velocity` returns `v` and the position is
as before; the next tick hands the movement computer the unchanged position and `v`, in that
the tick is the same for every movement computer that gives the same output for exactly
these arguments; and that tick stores the output velocity of the movement computer as the
velocity of the entity. -/
theorem set_velocity_then_tick (env : Env) (f : FallingBlock) (w : World) (v : Vec3)
    (n : Int) :
    (f.SetVelocity v).Velocity = v ∧
    (FallingBlock.call env Method.Velocity
      (FallingBlock.call env (Method.SetVelocity v) (f, w)).1).2 = Value.vec v ∧
    (f.SetVelocity v).Position = f.Position ∧
    ((f.SetVelocity v).Tick env w n).1.Velocity =
      (env.tickMovement f.c (f.SetVelocity v) w f.Position v).vel ∧
    ((f.SetVelocity v).Tick env w n).1.Position =
      (env.tickMovement f.c (f.SetVelocity v) w f.Position v).pos ∧
    (∀ env2 : Env,
      env2.solidifiable = env.solidifiable → env2.replaceable = env.replaceable →
      env2.item = env.item → env2.nilBlock = env.nilBlock →
      env2.tickMovement f.c (f.SetVelocity v) w f.Position v =
        env.tickMovement f.c (f.SetVelocity v) w f.Position v →
      (f.SetVelocity v).Tick env2 w n = (f.SetVelocity v).Tick env w n) := by
  refine ⟨rfl, rfl, rfl, ?_, ?_, ?_⟩
  · rw [tick_entity]; rfl
  · rw [tick_entity]; rfl
  · intro env2 hs hr hi hn hm
    apply tick_congr env env2 (f.SetVelocity v) w n
    · exact hm
    · unfold solidifiesAt; rw [hs]
    · exact hn
    · unfold replaceableBy; rw [hr]
    · rw [hi]

/-- Witness for C18: sand resting in the meadow is kicked upwards; the movement computer
that agrees with the example one only for this velocity gives the same tick. -/
theorem set_velocity_then_tick_witness :
    kickEnv.tickMovement restingSand.c restingSand (meadow []) ⟨0, 5, 0⟩ ⟨0, 0, 0⟩ ≠
      sampleEnv.tickMovement restingSand.c restingSand (meadow []) ⟨0, 5, 0⟩ ⟨0, 0, 0⟩ ∧
    (restingSand.SetVelocity ⟨0, 1, 0⟩).Tick kickEnv (meadow [Entity.fallingBlock 7]) 0 =
      (restingSand.SetVelocity ⟨0, 1, 0⟩).Tick sampleEnv (meadow [Entity.fallingBlock 7]) 0 := by
  refine ⟨?_, (set_velocity_then_tick sampleEnv restingSand (meadow [Entity.fallingBlock 7])
    ⟨0, 1, 0⟩ 0).2.2.2.2.2 kickEnv rfl rfl rfl rfl ?_⟩
  · norm_num [kickEnv, sampleEnv, sampleMovement, restingSand, NewFallingBlock, meadow,
      PosFromVec3, Int.floor_lt, stone, air]
  · simp [kickEnv, sampleEnv]

/-- C19: a tick does not depend on the tick counter: for every pair of tick numbers the
entity after the tick, the world after the tick and the calls made are the same. -/
theorem tick_ignores_counter (env : Env) (f : FallingBlock) (w : World) (n m : Int) :
    f.Tick env w n = f.Tick env w m ∧
    FallingBlock.call env (Method.Tick n) (f, w) =
      FallingBlock.call env (Method.Tick m) (f, w) :=
  ⟨rfl, rfl⟩

end Dragonfly
